import Mathlib

/-!
Verification of the OpenAPC toolkit record-normalization core
(`python/openapc_toolkit.py`) via a shallow embedding in Lean.

Python strings are modelled as `List Char` (`Str`); machine integers are
`Nat`/`Int`; fallible code returns `Option` (with `none` for an uncaught
Python exception); network collaborators are oracle functions supplied in an
environment record.  Python's `\d`, `str.strip`, `str.lower` are modelled on
ASCII, which covers the inputs of every property below.
-/

namespace OpenAPC

/-- Python strings, modelled as lists of characters. -/
abbrev Str := List Char

/-- Convert a Lean string literal to the embedded string type. -/
def s2l (s : String) : Str := s.data

/-- ASCII decimal digit test (Python's `\d` on the ASCII range). -/
def isDigitChar (c : Char) : Bool := 48 ≤ c.toNat && c.toNat ≤ 57

/-- Numeric value of a digit character. -/
def digitVal (c : Char) : Nat := c.toNat - 48

/-- Python whitespace characters stripped by `str.strip()` (ASCII part). -/
def isSpaceChar (c : Char) : Bool :=
  c = ' ' || c = '\t' || c = '\n' || c = '\x0d' || c = '\x0b' || c = '\x0c'

/-- Python `str.strip()`: drop whitespace from both ends. -/
def pyStrip (l : Str) : Str :=
  ((l.dropWhile isSpaceChar).reverse.dropWhile isSpaceChar).reverse

/-- Python `s.replace("-", "")`. -/
def removeHyphens (l : Str) : Str := l.filter (fun c => c ≠ '-')

/-- Python `s.replace(" ", "")`. -/
def removeSpaces (l : Str) : Str := l.filter (fun c => c ≠ ' ')

/-- Python `str.lower()` (ASCII case fold). -/
def lowerStr (l : Str) : Str := l.map Char.toLower

/-- `has_value` (source line 745): non-empty and not the `NA` sentinel. -/
def hasValue (l : Str) : Bool := l.length > 0 && l ≠ s2l "NA"

/-- Numeric value of a digit string (used for range-file lookups, where the
source computes `int(isbn_fragment[:7])`). -/
def digitsToNat (l : Str) : Nat := l.foldl (fun acc c => 10 * acc + digitVal c) 0

/-- Python `int(str)` on an optionally signed decimal string; `none` models
the `ValueError` raised on anything else. -/
def pyInt (l : Str) : Option Int :=
  let t := pyStrip l
  match t with
  | '-' :: rest => if rest ≠ [] && rest.all isDigitChar then
      some (-(digitsToNat rest : Int)) else none
  | '+' :: rest => if rest ≠ [] && rest.all isDigitChar then
      some (digitsToNat rest : Int) else none
  | rest => if rest ≠ [] && rest.all isDigitChar then
      some (digitsToNat rest : Int) else none

/-! ## ISSN validation (`ISSN_RE`, `is_wellformed_ISSN`, `is_valid_ISSN`) -/

/-- Parse a string against `ISSN_RE` (`^\d{4}\-\d{3}[\dxX]$`), returning the
seven digit characters and the check character. -/
def issnParse (l : Str) : Option (List Char × Char) :=
  match l with
  | [a, b, c, d, m, e, f, g, h] =>
    if m = '-' && [a, b, c, d, e, f, g].all isDigitChar &&
        (isDigitChar h || h = 'x' || h = 'X') then
      some ([a, b, c, d, e, f, g], h)
    else none
  | _ => none

/-- `is_wellformed_ISSN`: the input matches `ISSN_RE`. -/
def isWellformedISSN (l : Str) : Bool := (issnParse l).isSome

/-- Value of the ISSN check character (`X`/`x` counts as 10). -/
def issnCdVal (l : Str) : Nat :=
  match issnParse l with
  | some p => if p.2 = 'X' || p.2 = 'x' then 10 else digitVal p.2
  | none => 0

/-- The weighted digit sum computed by `is_valid_ISSN` (factor starts at 8
and decreases by one for each of the seven digits). -/
def issnTotal (l : Str) : Nat :=
  match issnParse l with
  | some p => (p.1.foldl (fun acc c => (acc.1 + digitVal c * acc.2, acc.2 - 1)) (0, 8)).1
  | none => 0

/-- `is_valid_ISSN` (source lines 632-652).  `none` models the
`AttributeError` the source raises when the input does not match `ISSN_RE`. -/
def isValidISSN (l : Str) : Option Bool :=
  match issnParse l with
  | none => none
  | some _ =>
    let cdv := issnCdVal l
    let total := issnTotal l
    if total % 11 = 0 && cdv = 0 then some true
    else if 11 - total % 11 = cdv then some true
    else some false

/-! ## ISBN handling (`ISBNHandling`) -/

/-- Match against `ISBN_RE` (`^97[89]\d{10}$`). -/
def isbnRe (l : Str) : Bool :=
  match l with
  | '9' :: '7' :: c :: rest =>
    (c = '8' || c = '9') && rest.length = 10 && rest.all isDigitChar
  | _ => false

/-- Match against `ISBN_SPLIT_RE`
(`^97[89]\-\d{1,5}\-\d{1,7}\-\d{1,6}\-\d{1}$`). -/
def isbnSplitRe (l : Str) : Bool :=
  match l.splitOn '-' with
  | [a, b, c, d, e] =>
    (a = s2l "978" || a = s2l "979") &&
    (1 ≤ b.length && b.length ≤ 5 && b.all isDigitChar) &&
    (1 ≤ c.length && c.length ≤ 7 && c.all isDigitChar) &&
    (1 ≤ d.length && d.length ≤ 6 && d.all isDigitChar) &&
    (e.length = 1 && e.all isDigitChar)
  | _ => false

/-- One `Rule` element of the ISBN RangeMessage: a numeric range (both
bounds 7-digit values) mapped to a segment length. -/
structure RangeRule where
  lo : Nat
  hi : Nat
  len : Nat
deriving DecidableEq, Repr

/-- One `EAN.UCC` element: a numeric EAN prefix with its range rules. -/
structure EANElem where
  pfx : Str
  rules : List RangeRule
deriving DecidableEq, Repr

/-- One `Group` element: a registration-group prefix (e.g. `978-3`) with its
range rules. -/
structure RegGroup where
  pfx : Str
  rules : List RangeRule
deriving DecidableEq, Repr

/-- The parsed RangeMessage reference dataset (the raw XML table is supplied
by an external collaborator; the lookup algorithm below is the source's). -/
structure RangeData where
  eans : List EANElem
  groups : List RegGroup
deriving DecidableEq, Repr

/-- `_get_range_length_from_rules`: find the first rule whose numeric range
encloses the value of the first (up to) 7 digits of the fragment.  `none`
models the `ValueError` raised when no rule matches. -/
def getRangeLength (frag : Str) (rules : List RangeRule) : Option Nat :=
  let value := digitsToNat (frag.take 7)
  rules.findSome? (fun r => if r.lo ≤ value && value ≤ r.hi then some r.len else none)

/-- Result of `split_isbn`: `ok` is `success=True`, `err` carries the error
message returned with `success=False`, `exn` models an uncaught
`ValueError` from `_get_range_length_from_rules`. -/
inductive SplitOut where
  | ok (v : Str)
  | err (msg : Str)
  | exn
deriving DecidableEq, Repr

/-- Python `s[-1:]`. -/
def takeLast1 (l : Str) : Str := l.drop (l.length - 1)

/-- `split_isbn` (source lines 440-508): hyphenate a 13-digit ISBN by
walking the range data (first matching EAN prefix, then the registration
group named by the accumulated split, reading segment lengths from the
enclosing numeric sub-ranges; a length of 0 is an unallocated range). -/
def splitIsbn (rd : RangeData) (isbn : Str) : SplitOut :=
  if ¬ isbnRe isbn then
    .err ('"' :: isbn ++ s2l "\" is no valid 13-digit ISBN!")
  else
    match rd.eans.find? (fun e => e.pfx.isPrefixOf isbn) with
    | none => .err (s2l "ISBN \"" ++ isbn ++ s2l "\" does not seem to have a valid prefix.")
    | some ean =>
      let rem0 := isbn.drop ean.pfx.length
      match getRangeLength rem0 ean.rules with
      | none => .exn
      | some len1 =>
        if len1 = 0 then
          .err (s2l "Invalid ISBN: Remaining fragment \"" ++ rem0 ++
                s2l "\" for EAN prefix \"" ++ ean.pfx ++
                s2l "\" is inside a range which is not marked for use yet")
        else
          let group := rem0.take len1
          let splitSoFar := ean.pfx ++ '-' :: group
          let rem1 := rem0.drop len1
          match rd.groups.find? (fun g => splitSoFar = g.pfx) with
          | none => .err (s2l "ISBN \"" ++ isbn ++
              s2l "\" does not seem to have a valid registration group element.")
          | some g =>
            match getRangeLength rem1 g.rules with
            | none => .exn
            | some len2 =>
              if len2 = 0 then
                .err (s2l "Invalid ISBN: Remaining fragment \"" ++ rem1 ++
                      s2l "\" for registration group \"" ++ splitSoFar ++
                      s2l "\" is inside a range which is not marked for use yet")
              else
                let registrant := rem1.take len2
                let rem2 := rem1.drop len2
                let checkDigit := takeLast1 rem2
                let publicationNumber := rem2.dropLast
                .ok (splitSoFar ++ '-' :: registrant ++ '-' :: publicationNumber
                     ++ '-' :: checkDigit)

/-- Result of `test_and_normalize_isbn`: `valid` carries the `normalised`
value, `invalid` the `error_type`, `exn` an uncaught exception from
`split_isbn`. -/
inductive NormOut where
  | valid (norm : Str)
  | invalid (errType : Nat)
  | exn
deriving DecidableEq, Repr

/-- `test_and_normalize_isbn` (source lines 365-408).  Note that the source
reads `split_isbn(...)["value"]` without checking the `success` flag, so the
`.err` message string flows into the comparison and the `normalised` result
exactly as in the code. -/
def testAndNormalizeIsbn (rd : RangeData) (isbn : Str) : NormOut :=
  let stripped := pyStrip isbn
  let unsplit := removeHyphens stripped
  if isbnSplitRe stripped && decide (stripped.length < 17) then .invalid 1
  else if isbnSplitRe stripped && decide (17 < stripped.length) then .invalid 2
  else if isbnRe unsplit then
    match splitIsbn rd unsplit with
    | .exn => .exn
    | .ok v => if isbnSplitRe stripped && v ≠ stripped then .invalid 3 else .valid v
    | .err m => if isbnSplitRe stripped && m ≠ stripped then .invalid 3 else .valid m
  else .invalid 0

/-! ### ISSN checksum lemmas (claim C4) -/

theorem digitVal_le_nine {c : Char} (h : isDigitChar c = true) : digitVal c ≤ 9 := by
  simp only [isDigitChar, Bool.and_eq_true, decide_eq_true_eq] at h
  simp only [digitVal]
  omega

theorem digit_not_xX {c : Char} (h : isDigitChar c = true) :
    (c = 'X' || c = 'x') = false := by
  simp only [Bool.or_eq_false_iff, decide_eq_false_iff_not]
  constructor <;> rintro rfl <;> exact absurd h (by decide)

theorem digitVal_ne_of_ne {c c' : Char} (hc : isDigitChar c = true)
    (hc' : isDigitChar c' = true) (h : c ≠ c') : digitVal c ≠ digitVal c' := by
  simp only [isDigitChar, Bool.and_eq_true, decide_eq_true_eq] at hc hc'
  have hnat : c.toNat ≠ c'.toNat := by
    intro he
    exact h (by
      have := congrArg Char.ofNat he
      rwa [Char.ofNat_toNat, Char.ofNat_toNat] at this)
  simp only [digitVal]
  omega

theorem issnParse_shape {l : Str} {ds : List Char} {cd : Char}
    (h : issnParse l = some (ds, cd)) :
    ∃ a b c d e f g, ds = [a, b, c, d, e, f, g] ∧
      l = [a, b, c, d, '-', e, f, g, cd] ∧
      isDigitChar a = true ∧ isDigitChar b = true ∧ isDigitChar c = true ∧
      isDigitChar d = true ∧ isDigitChar e = true ∧ isDigitChar f = true ∧
      isDigitChar g = true ∧
      (isDigitChar cd = true ∨ cd = 'x' ∨ cd = 'X') := by
  unfold issnParse at h
  split at h
  next a b c d m e f g hc =>
    split at h
    next hg =>
      simp only [Bool.and_eq_true, List.all_cons, List.all_nil, Bool.or_eq_true,
        decide_eq_true_eq] at hg
      obtain ⟨⟨hm, ha, hb, hc0, hd, he, hf, hg7, _⟩, hcd⟩ := hg
      injection h with h
      injection h with h1 h2
      subst h1; subst h2; subst hm
      exact ⟨a, b, c, d, e, f, g, rfl, rfl, ha, hb, hc0, hd, he, hf, hg7, by tauto⟩
    next => cases h
  next => cases h

theorem issnParse_mk {a b c d e f g h : Char}
    (h1 : isDigitChar a = true) (h2 : isDigitChar b = true)
    (h3 : isDigitChar c = true) (h4 : isDigitChar d = true)
    (h5 : isDigitChar e = true) (h6 : isDigitChar f = true)
    (h7 : isDigitChar g = true)
    (h8 : isDigitChar h = true ∨ h = 'x' ∨ h = 'X') :
    issnParse [a, b, c, d, '-', e, f, g, h] = some ([a, b, c, d, e, f, g], h) := by
  unfold issnParse
  have h8' : (isDigitChar h || h = 'x' || h = 'X') = true := by
    rcases h8 with h8 | h8 | h8 <;> simp [h8]
  simp [h1, h2, h3, h4, h5, h6, h7, h8']

theorem issnCdVal_mk {a b c d e f g h : Char}
    (hp : issnParse [a, b, c, d, '-', e, f, g, h] = some ([a, b, c, d, e, f, g], h)) :
    issnCdVal [a, b, c, d, '-', e, f, g, h] =
      if (h = 'X' || h = 'x') = true then 10 else digitVal h := by
  unfold issnCdVal
  rw [hp]

theorem issnTotal_mk {a b c d e f g h : Char}
    (hp : issnParse [a, b, c, d, '-', e, f, g, h] = some ([a, b, c, d, e, f, g], h)) :
    issnTotal [a, b, c, d, '-', e, f, g, h] =
      digitVal a * 8 + digitVal b * 7 + digitVal c * 6 + digitVal d * 5 +
      digitVal e * 4 + digitVal f * 3 + digitVal g * 2 := by
  unfold issnTotal
  rw [hp]
  simp [List.foldl]

theorem issnCdVal_le_ten {l : Str} {ds : List Char} {cd : Char}
    (h : issnParse l = some (ds, cd)) : issnCdVal l ≤ 10 := by
  obtain ⟨a, b, c, d, e, f, g, hds, hl, _, _, _, _, _, _, _, hcd⟩ := issnParse_shape h
  subst hds; subst hl
  rw [issnCdVal_mk h]
  split
  next => omega
  next hX =>
    rcases hcd with hcd | hcd | hcd
    · have := digitVal_le_nine hcd
      omega
    · subst hcd; simp at hX
    · subst hcd; simp at hX

theorem isValidISSN_eq_decide {l : Str} {ds : List Char} {cd : Char}
    (h : issnParse l = some (ds, cd)) :
    isValidISSN l = some (decide ((issnTotal l % 11 = 0 ∧ issnCdVal l = 0) ∨
      11 - issnTotal l % 11 = issnCdVal l)) := by
  have hbody : isValidISSN l =
      (if issnTotal l % 11 = 0 && issnCdVal l = 0 then some true
       else if 11 - issnTotal l % 11 = issnCdVal l then some true
       else some false) := by
    unfold isValidISSN
    rw [h]
  rw [hbody]
  split
  next hb =>
    simp only [Bool.and_eq_true, decide_eq_true_eq] at hb
    have hx : (issnTotal l % 11 = 0 ∧ issnCdVal l = 0) ∨
        11 - issnTotal l % 11 = issnCdVal l := Or.inl hb
    simp [hx]
  next hb1 =>
    simp only [Bool.and_eq_true, decide_eq_true_eq, not_and] at hb1
    split
    next hb2 =>
      have hx : (issnTotal l % 11 = 0 ∧ issnCdVal l = 0) ∨
          11 - issnTotal l % 11 = issnCdVal l := Or.inr hb2
      simp [hx]
    next hb2 =>
      have hx : ¬ ((issnTotal l % 11 = 0 ∧ issnCdVal l = 0) ∨
          11 - issnTotal l % 11 = issnCdVal l) := by
        rintro (⟨u, v⟩ | u)
        · exact hb1 u v
        · exact hb2 u
      simp [hx]

/-- Altering exactly one digit of a valid ISSN (at any of the seven digit
positions or a digit check position) yields a rejected string. -/
theorem issn_single_alteration_rejected (p q : Str) (c c' : Char)
    (hc : isDigitChar c = true) (hc' : isDigitChar c' = true) (hne : c ≠ c')
    (hw : isWellformedISSN (p ++ c :: q) = true)
    (hv : isValidISSN (p ++ c :: q) = some true) :
    isValidISSN (p ++ c' :: q) = some false := by
  have hdv := digitVal_ne_of_ne hc hc' hne
  have hc9 := digitVal_le_nine hc
  have hc9' := digitVal_le_nine hc'
  obtain ⟨pr, hp⟩ := Option.isSome_iff_exists.mp hw
  obtain ⟨ds, cd⟩ := pr
  obtain ⟨a, b, c0, d, e, f, g, hds, hl, ha, hb, hc0, hd, he, hf, hg, hcd⟩ :=
    issnParse_shape hp
  subst hds
  rcases p with _ | ⟨x1, _ | ⟨x2, _ | ⟨x3, _ | ⟨x4, _ | ⟨x5, _ | ⟨x6, _ | ⟨x7,
    _ | ⟨x8, _ | ⟨x9, prest⟩⟩⟩⟩⟩⟩⟩⟩⟩
  · -- altered digit 1 (weight 8)
    simp only [List.nil_append, List.cons.injEq] at hl hp hv ⊢
    obtain ⟨rfl, rfl⟩ := hl
    have hp' := issnParse_mk hc' hb hc0 hd he hf hg hcd
    have h10 := issnCdVal_le_ten hp
    have hcdeq := (issnCdVal_mk hp').trans (issnCdVal_mk hp).symm
    rw [isValidISSN_eq_decide hp] at hv
    rw [isValidISSN_eq_decide hp']
    simp only [Option.some_inj, decide_eq_true_eq] at hv
    simp only [Option.some_inj, decide_eq_false_iff_not]
    rw [issnTotal_mk hp] at hv
    rw [issnTotal_mk hp', hcdeq]
    omega
  · -- altered digit 2 (weight 7)
    simp only [List.cons_append, List.nil_append, List.cons.injEq] at hl hp hv ⊢
    obtain ⟨rfl, rfl, rfl⟩ := hl
    have hp' := issnParse_mk ha hc' hc0 hd he hf hg hcd
    have h10 := issnCdVal_le_ten hp
    have hcdeq := (issnCdVal_mk hp').trans (issnCdVal_mk hp).symm
    rw [isValidISSN_eq_decide hp] at hv
    rw [isValidISSN_eq_decide hp']
    simp only [Option.some_inj, decide_eq_true_eq] at hv
    simp only [Option.some_inj, decide_eq_false_iff_not]
    rw [issnTotal_mk hp] at hv
    rw [issnTotal_mk hp', hcdeq]
    omega
  · -- altered digit 3 (weight 6)
    simp only [List.cons_append, List.nil_append, List.cons.injEq] at hl hp hv ⊢
    obtain ⟨rfl, rfl, rfl, rfl⟩ := hl
    have hp' := issnParse_mk ha hb hc' hd he hf hg hcd
    have h10 := issnCdVal_le_ten hp
    have hcdeq := (issnCdVal_mk hp').trans (issnCdVal_mk hp).symm
    rw [isValidISSN_eq_decide hp] at hv
    rw [isValidISSN_eq_decide hp']
    simp only [Option.some_inj, decide_eq_true_eq] at hv
    simp only [Option.some_inj, decide_eq_false_iff_not]
    rw [issnTotal_mk hp] at hv
    rw [issnTotal_mk hp', hcdeq]
    omega
  · -- altered digit 4 (weight 5)
    simp only [List.cons_append, List.nil_append, List.cons.injEq] at hl hp hv ⊢
    obtain ⟨rfl, rfl, rfl, rfl, rfl⟩ := hl
    have hp' := issnParse_mk ha hb hc0 hc' he hf hg hcd
    have h10 := issnCdVal_le_ten hp
    have hcdeq := (issnCdVal_mk hp').trans (issnCdVal_mk hp).symm
    rw [isValidISSN_eq_decide hp] at hv
    rw [isValidISSN_eq_decide hp']
    simp only [Option.some_inj, decide_eq_true_eq] at hv
    simp only [Option.some_inj, decide_eq_false_iff_not]
    rw [issnTotal_mk hp] at hv
    rw [issnTotal_mk hp', hcdeq]
    omega
  · -- the fifth character is the hyphen, which is not a digit
    simp only [List.cons_append, List.nil_append, List.cons.injEq] at hl
    obtain ⟨rfl, rfl, rfl, rfl, rfl, rfl⟩ := hl
    exact absurd hc (by decide)
  · -- altered digit 5 (weight 4)
    simp only [List.cons_append, List.nil_append, List.cons.injEq] at hl hp hv ⊢
    obtain ⟨rfl, rfl, rfl, rfl, rfl, rfl, rfl⟩ := hl
    have hp' := issnParse_mk ha hb hc0 hd hc' hf hg hcd
    have h10 := issnCdVal_le_ten hp
    have hcdeq := (issnCdVal_mk hp').trans (issnCdVal_mk hp).symm
    rw [isValidISSN_eq_decide hp] at hv
    rw [isValidISSN_eq_decide hp']
    simp only [Option.some_inj, decide_eq_true_eq] at hv
    simp only [Option.some_inj, decide_eq_false_iff_not]
    rw [issnTotal_mk hp] at hv
    rw [issnTotal_mk hp', hcdeq]
    omega
  · -- altered digit 6 (weight 3)
    simp only [List.cons_append, List.nil_append, List.cons.injEq] at hl hp hv ⊢
    obtain ⟨rfl, rfl, rfl, rfl, rfl, rfl, rfl, rfl⟩ := hl
    have hp' := issnParse_mk ha hb hc0 hd he hc' hg hcd
    have h10 := issnCdVal_le_ten hp
    have hcdeq := (issnCdVal_mk hp').trans (issnCdVal_mk hp).symm
    rw [isValidISSN_eq_decide hp] at hv
    rw [isValidISSN_eq_decide hp']
    simp only [Option.some_inj, decide_eq_true_eq] at hv
    simp only [Option.some_inj, decide_eq_false_iff_not]
    rw [issnTotal_mk hp] at hv
    rw [issnTotal_mk hp', hcdeq]
    omega
  · -- altered digit 7 (weight 2)
    simp only [List.cons_append, List.nil_append, List.cons.injEq] at hl hp hv ⊢
    obtain ⟨rfl, rfl, rfl, rfl, rfl, rfl, rfl, rfl, rfl⟩ := hl
    have hp' := issnParse_mk ha hb hc0 hd he hf hc' hcd
    have h10 := issnCdVal_le_ten hp
    have hcdeq := (issnCdVal_mk hp').trans (issnCdVal_mk hp).symm
    rw [isValidISSN_eq_decide hp] at hv
    rw [isValidISSN_eq_decide hp']
    simp only [Option.some_inj, decide_eq_true_eq] at hv
    simp only [Option.some_inj, decide_eq_false_iff_not]
    rw [issnTotal_mk hp] at hv
    rw [issnTotal_mk hp', hcdeq]
    omega
  · -- altered check digit (both characters are digits)
    simp only [List.cons_append, List.nil_append, List.cons.injEq] at hl hp hv ⊢
    obtain ⟨rfl, rfl, rfl, rfl, rfl, rfl, rfl, rfl, rfl, rfl⟩ := hl
    have hp' := issnParse_mk ha hb hc0 hd he hf hg (Or.inl hc')
    rw [isValidISSN_eq_decide hp] at hv
    rw [isValidISSN_eq_decide hp']
    simp only [Option.some_inj, decide_eq_true_eq] at hv
    simp only [Option.some_inj, decide_eq_false_iff_not]
    rw [issnTotal_mk hp, issnCdVal_mk hp, digit_not_xX hc] at hv
    rw [issnTotal_mk hp', issnCdVal_mk hp', digit_not_xX hc']
    simp only [Bool.false_eq_true, if_false] at hv ⊢
    omega
  · -- a prefix of length nine or more cannot occur in a nine-character ISSN
    have hlen := congrArg List.length hl
    simp only [List.length_append, List.length_cons] at hlen
    simp at hlen
    omega

/-- C4: for every well-formed ISSN string `NNNN-NNNC`, `is_valid_ISSN`
accepts iff the weighted sum of the 7 digits (weights 8 down to 2) satisfies
the standard algorithm: remainder 0 mod 11 requires check digit 0, otherwise
the check digit (X counting as 10) must equal 11 minus the remainder.  It
accepts `0262-4079`, and rejects every well-formed string obtained from an
accepted ISSN by altering exactly one digit. -/
theorem c4_issn_checksum :
    (∀ l : Str, isWellformedISSN l = true →
      (isValidISSN l = some true ↔
        (if issnTotal l % 11 = 0 then issnCdVal l = 0
         else issnCdVal l = 11 - issnTotal l % 11))) ∧
    isValidISSN (s2l "0262-4079") = some true ∧
    (∀ (p q : Str) (c c' : Char), isDigitChar c = true → isDigitChar c' = true →
      c ≠ c' → isWellformedISSN (p ++ c :: q) = true →
      isValidISSN (p ++ c :: q) = some true →
      isValidISSN (p ++ c' :: q) = some false) := by
  refine ⟨?_, by decide, issn_single_alteration_rejected⟩
  intro l hw
  obtain ⟨⟨ds, cd⟩, hp⟩ := Option.isSome_iff_exists.mp hw
  have h10 := issnCdVal_le_ten hp
  have hmod : issnTotal l % 11 < 11 := Nat.mod_lt _ (by norm_num)
  rw [isValidISSN_eq_decide hp]
  simp only [Option.some_inj, decide_eq_true_eq]
  split <;> omega

/-- C4 witness: the iff instantiated at `0262-4079`, and the alteration of
its first digit rejected. -/
theorem c4_issn_checksum_witness :
    (isValidISSN (s2l "0262-4079") = some true ↔
      (if issnTotal (s2l "0262-4079") % 11 = 0 then issnCdVal (s2l "0262-4079") = 0
       else issnCdVal (s2l "0262-4079") = 11 - issnTotal (s2l "0262-4079") % 11)) ∧
    isValidISSN (s2l "1262-4079") = some false := by
  constructor
  · exact c4_issn_checksum.1 (s2l "0262-4079") (by decide)
  · exact c4_issn_checksum.2.2 [] (s2l "262-4079") '0' '1' (by decide) (by decide)
      (by decide) (by decide) (by decide)

/-- `_process_isbn` (source lines 1240-1263): guard of the repair branch
`norm_res["error_type"] == 4` (reached only when the value is non-empty and
normalization reported `valid=False`). -/
def repairBranchTaken (rd : RangeData) (isbn : Str) : Bool :=
  hasValue isbn &&
    (match testAndNormalizeIsbn rd (removeSpaces isbn) with
     | .invalid e => e == 4
     | _ => false)

/-- Every `invalid` outcome of `test_and_normalize_isbn` carries one of the
error codes 0, 1, 2, 3. -/
theorem testAndNormalizeIsbn_invalid_lt_four (rd : RangeData) (s : Str) (e : Nat)
    (h : testAndNormalizeIsbn rd s = .invalid e) : e < 4 := by
  simp only [testAndNormalizeIsbn] at h
  split at h
  · injection h with h; omega
  · split at h
    · injection h with h; omega
    · split at h
      · split at h
        · cases h
        · split at h
          · injection h with h; omega
          · cases h
        · split at h
          · injection h with h; omega
          · cases h
      · injection h with h; omega

/-- A range tree with no rules at all (used for concrete evaluations whose
outcome does not depend on the range data). -/
def rdTrivial : RangeData := ⟨[], []⟩

/-- A small range tree: EAN prefix 978 with registration-group length 1,
group 978-3 with registrant length 2 (matching the real allocation that
makes `9783161484100` split as `978-3-16-148410-0`). -/
def rdW : RangeData :=
  ⟨[⟨s2l "978", [⟨0, 9999999, 1⟩]⟩], [⟨s2l "978-3", [⟨0, 9999999, 2⟩]⟩]⟩

/-- A range tree whose registration group 979-0 maps every registrant range
to length 0, i.e. an unallocated ("reserved") range, as present in the real
RangeMessage file for several prefixes. -/
def rdReserved : RangeData :=
  ⟨[⟨s2l "979", [⟨0, 9999999, 1⟩]⟩], [⟨s2l "979-0", [⟨0, 9999999, 0⟩]⟩]⟩

/-- C2: for every input matching the generic 5-group hyphenated split
pattern whose stripped length is not 17, `test_and_normalize_isbn` returns
`Invalid` with error 1 (too short) or 2 (too long); and for a 17-character
hyphen-segmented input whose digits form a syntactically valid 13-digit
ISBN, if the freshly computed canonical split differs from the input's
segmentation the result is `Invalid` with error 3 (bad segmentation). -/
theorem c2_isbn_length_and_segmentation (rd : RangeData) (s : Str) :
    (isbnSplitRe (pyStrip s) = true → (pyStrip s).length ≠ 17 →
      testAndNormalizeIsbn rd s =
        .invalid (if (pyStrip s).length < 17 then 1 else 2)) ∧
    (isbnSplitRe (pyStrip s) = true → (pyStrip s).length = 17 →
      isbnRe (removeHyphens (pyStrip s)) = true →
      ∀ c, splitIsbn rd (removeHyphens (pyStrip s)) = .ok c → c ≠ pyStrip s →
        testAndNormalizeIsbn rd s = .invalid 3) := by
  constructor
  · intro h1 h2
    unfold testAndNormalizeIsbn
    rcases Nat.lt_or_ge (pyStrip s).length 17 with hlt | hge
    · simp [h1, hlt]
    · have hgt : 17 < (pyStrip s).length := by omega
      simp [h1, hgt, Nat.lt_asymm hgt, if_neg (Nat.lt_asymm hgt)]
  · intro h1 hl hre c hok hne
    unfold testAndNormalizeIsbn
    simp [h1, hl, hre, hok, hne]

/-- C2 witness: a 16-character split input is rejected as too short, and a
17-character input with a wrong segmentation is rejected with error 3. -/
theorem c2_isbn_length_and_segmentation_witness :
    testAndNormalizeIsbn rdW (s2l "978-3-16-14841-0") = .invalid 1 ∧
    testAndNormalizeIsbn rdW (s2l "978-31-6-148410-0") = .invalid 3 := by
  constructor
  · have h := (c2_isbn_length_and_segmentation rdW (s2l "978-3-16-14841-0")).1
      (by decide) (by decide)
    simpa using h
  · exact (c2_isbn_length_and_segmentation rdW (s2l "978-31-6-148410-0")).2
      (by decide) (by decide) (by decide) (s2l "978-3-16-148410-0")
      (by decide) (by decide)

/-- C3 (code bug): `test_and_normalize_isbn` ignores the `success` flag of
`split_isbn`, so for a 13-digit input falling in an unallocated (length-0)
range it reports `valid=True` with the *error message* as the normalised
form; normalizing that "normalised" result again is rejected with error 0.
Idempotence of normalization therefore fails on the code. -/
theorem c3_idempotence_violation :
    testAndNormalizeIsbn rdReserved (s2l "9790000000000") =
      .valid (s2l "Invalid ISBN: Remaining fragment \"000000000\" for registration group \"979-0\" is inside a range which is not marked for use yet") ∧
    testAndNormalizeIsbn rdReserved
      (s2l "Invalid ISBN: Remaining fragment \"000000000\" for registration group \"979-0\" is inside a range which is not marked for use yet") =
      .invalid 0 := by
  constructor
  · decide
  · decide

/-- C9: the `error_type` of an invalid normalization result is always one of
0, 1, 2, 3; consequently the repair branch in `_process_isbn` guarded by
`error_type == 4` is unreachable for every input. -/
theorem c9_isbn_error_codes (rd : RangeData) (s : Str) :
    (∀ e, testAndNormalizeIsbn rd s = .invalid e →
      e = 0 ∨ e = 1 ∨ e = 2 ∨ e = 3) ∧
    repairBranchTaken rd s = false := by
  constructor
  · intro e h
    have := testAndNormalizeIsbn_invalid_lt_four rd s e h
    omega
  · unfold repairBranchTaken
    cases h : testAndNormalizeIsbn rd (removeSpaces s) with
    | valid n => simp
    | exn => simp
    | invalid e =>
      have := testAndNormalizeIsbn_invalid_lt_four rd (removeSpaces s) e h
      simp only [Bool.and_eq_false_iff]
      right
      simp only [beq_eq_false_iff_ne, ne_eq]
      omega

/-- C9 witness: concrete application at an input rejected with error 0. -/
theorem c9_isbn_error_codes_witness :
    ((0 : Nat) = 0 ∨ (0 : Nat) = 1 ∨ (0 : Nat) = 2 ∨ (0 : Nat) = 3) ∧
    repairBranchTaken rdTrivial (s2l "x") = false :=
  ⟨(c9_isbn_error_codes rdTrivial (s2l "x")).1 0 (by decide),
   (c9_isbn_error_codes rdTrivial (s2l "x")).2⟩

/-! ## The quote-policy CSV writer (`OpenAPCUnicodeWriter`) -/

/-- Constructor arguments of `OpenAPCUnicodeWriter` (minus the file). -/
structure WriterCfg where
  quotemask : Option (List Bool)
  openapcQuoteRules : Bool
  hasHeader : Bool
  minimalQuotes : Bool
deriving DecidableEq, Repr

/-- The three reserved keywords that `openapc_quote_rules` never quotes. -/
def isKeyword (cell : Str) : Bool :=
  cell = s2l "TRUE" || cell = s2l "FALSE" || cell = s2l "NA"

/-- `row[index].replace('"', '""')` followed by surrounding quotes. -/
def quoteEsc (cell : Str) : Str :=
  '"' :: (cell.map (fun c => if c = '"' then ['"', '"'] else [c])).flatten ++ ['"']

/-- Python falsiness of `self.quotemask` (`None` or the empty list). -/
def maskFalsy : Option (List Bool) → Bool
  | none => true
  | some m => m.isEmpty

/-- The body of the `for` loop of `_prepare_row` (source lines 203-217) for
the cell at `index`. -/
def prepareCell (cfg : WriterCfg) (useQm : Bool) (i : Nat) (cell : Str) : Str :=
  if cfg.openapcQuoteRules && isKeyword cell then cell
  else if !useQm || maskFalsy cfg.quotemask then quoteEsc cell
  else
    match cfg.quotemask with
    | some mask =>
      if i < mask.length then
        if mask.getD i false || (cell.contains ',' && cfg.minimalQuotes) then
          quoteEsc cell
        else cell
      else cell
    | none => cell

/-- `_prepare_row`'s loop over `range(len(row))`. -/
def prepareRowAux (cfg : WriterCfg) (useQm : Bool) : Nat → List Str → List Str
  | _, [] => []
  | i, c :: rest => prepareCell cfg useQm i c :: prepareRowAux cfg useQm (i + 1) rest

/-- `_prepare_row` (source lines 203-217). -/
def prepareRow (cfg : WriterCfg) (useQm : Bool) (row : List Str) : List Str :=
  prepareRowAux cfg useQm 0 row

/-- `_write_row` (source lines 219-221): join with commas, append newline. -/
def writeRowLine (row : List Str) : Str :=
  (List.intercalate (s2l ",") row) ++ ['\n']

/-- The row lists produced by `write_rows` (source lines 223-227) before
serialization: with a header, the first row is prepared with
`use_quotemask=False`; `none` models the `IndexError` of `rows.pop(0)` on an
empty list. -/
def preparedRows (cfg : WriterCfg) (rows : List (List Str)) :
    Option (List (List Str)) :=
  if cfg.hasHeader then
    match rows with
    | [] => none
    | r0 :: rest => some (prepareRow cfg false r0 :: rest.map (prepareRow cfg true))
  else some (rows.map (prepareRow cfg true))

/-- `write_rows`: the sequence of lines written to the output file. -/
def writeRows (cfg : WriterCfg) (rows : List (List Str)) : Option (List Str) :=
  (preparedRows cfg rows).map (List.map writeRowLine)

/-- C5: with a quotemask present (and the default flags), a data-row cell
with a mask entry is quoted iff the mask entry is true or the cell contains
a comma, except that the reserved keywords are never quoted; the
documented examples hold. -/
theorem c5_quotemask_policy :
    (∀ (mask : List Bool) (hh : Bool) (i : Nat) (cell : Str), i < mask.length →
      prepareCell ⟨some mask, true, hh, true⟩ true i cell =
        (if isKeyword cell = true then cell
         else if mask.getD i false = true ∨ cell.contains ',' = true then
           quoteEsc cell
         else cell)) ∧
    writeRowLine (prepareRow ⟨some [true, false], true, true, true⟩ true
      [s2l "a,b", s2l "c"]) = s2l "\"a,b\",c\n" ∧
    prepareCell ⟨some [true, false], true, true, true⟩ true 1 (s2l "TRUE") =
      s2l "TRUE" := by
  refine ⟨?_, by decide, by decide⟩
  intro mask hh i cell hi
  have hne : mask.isEmpty = false := by
    cases mask with
    | nil => simp at hi
    | cons a as => rfl
  by_cases hkw : isKeyword cell = true
  · simp [prepareCell, hkw]
  · simp only [Bool.not_eq_true] at hkw
    simp [prepareCell, maskFalsy, hkw, hne, hi, Bool.or_eq_true]

/-- C5 witness: a non-keyword cell in a true-masked column is quoted. -/
theorem c5_quotemask_policy_witness :
    prepareCell ⟨some [true], true, true, true⟩ true 0 (s2l "x") =
      quoteEsc (s2l "x") :=
  (c5_quotemask_policy.1 [true] true 0 (s2l "x") (by decide)).trans (by decide)

/-- C6 counterexample: with the default configuration, a header cell equal
to the reserved keyword `NA` is written unquoted, so not every cell of the
first written row is quoted. -/
theorem c6_header_keyword_unquoted :
    preparedRows ⟨none, true, true, true⟩ [[s2l "NA"]] = some [[s2l "NA"]] ∧
    s2l "NA" ≠ quoteEsc (s2l "NA") := by
  constructor
  · decide
  · decide

/-- C6 amended: every cell of the first row written by `write_rows` with
`has_header` set is quoted regardless of the quotemask, *except* cells equal
to `TRUE`/`FALSE`/`NA` when `openapc_quote_rules` is enabled, which stay
unquoted. -/
theorem c6_header_quoting_amended (cfg : WriterCfg) (r0 : List Str)
    (rest : List (List Str)) (h : cfg.hasHeader = true) :
    preparedRows cfg (r0 :: rest) =
      some ((r0.map fun cell =>
        if cfg.openapcQuoteRules && isKeyword cell then cell else quoteEsc cell)
        :: rest.map (prepareRow cfg true)) := by
  unfold preparedRows
  rw [if_pos h]
  have haux : ∀ (l : List Str) (i : Nat), prepareRowAux cfg false i l =
      l.map fun cell =>
        if cfg.openapcQuoteRules && isKeyword cell then cell else quoteEsc cell := by
    intro l
    induction l with
    | nil => intro i; rfl
    | cons c rest ih =>
      intro i
      have hcell : prepareCell cfg false i c =
          (if cfg.openapcQuoteRules && isKeyword c then c else quoteEsc c) := by
        by_cases hkw : (cfg.openapcQuoteRules && isKeyword c) = true
        · simp [prepareCell, hkw]
        · simp only [Bool.not_eq_true] at hkw
          simp [prepareCell, hkw]
      simp only [prepareRowAux, List.map_cons, ih, hcell]
  simp only [prepareRow]
  rw [haux]

/-- C6 amended witness: with quote rules disabled even the keyword `NA` is
quoted in the header row. -/
theorem c6_header_quoting_amended_witness :
    preparedRows ⟨none, false, true, true⟩ [[s2l "NA"]] =
      some [[s2l "\"NA\""]] := by
  rw [c6_header_quoting_amended ⟨none, false, true, true⟩ [s2l "NA"] [] rfl]
  decide

/-- C10: a cell whose index has no quotemask entry is written unchanged
(unquoted and unescaped) even if it contains the delimiter, while a `None`
or empty quotemask makes every non-keyword cell quoted. -/
theorem c10_short_quotemask :
    (∀ (cfg : WriterCfg) (mask : List Bool) (i : Nat) (cell : Str),
      cfg.quotemask = some mask → mask ≠ [] → mask.length ≤ i →
      prepareCell cfg true i cell = cell) ∧
    (∀ (cfg : WriterCfg) (i : Nat) (cell : Str),
      cfg.quotemask = none ∨ cfg.quotemask = some [] → isKeyword cell = false →
      prepareCell cfg true i cell = quoteEsc cell) := by
  constructor
  · intro cfg mask i cell hm hne hlen
    have hempty : mask.isEmpty = false := by
      cases mask with
      | nil => exact absurd rfl hne
      | cons a as => rfl
    by_cases hkw : (cfg.openapcQuoteRules && isKeyword cell) = true
    · simp [prepareCell, hkw]
    · simp only [Bool.not_eq_true] at hkw
      have hge : ¬ i < mask.length := by omega
      simp [prepareCell, hkw, hm, maskFalsy, hempty, hge]
  · intro cfg i cell hm hkw
    have hfalsy : maskFalsy cfg.quotemask = true := by
      rcases hm with hm | hm <;> simp [hm, maskFalsy, List.isEmpty]
    simp [prepareCell, hkw, hfalsy]

/-- C10 witness: index 1 is beyond the mask `[true]`, so `a,b` stays
unquoted there; with no mask, `x` is quoted. -/
theorem c10_short_quotemask_witness :
    prepareCell ⟨some [true], true, true, true⟩ true 1 (s2l "a,b") = s2l "a,b" ∧
    prepareCell ⟨none, true, true, true⟩ true 0 (s2l "x") = quoteEsc (s2l "x") :=
  ⟨c10_short_quotemask.1 ⟨some [true], true, true, true⟩ [true] 1 (s2l "a,b")
      rfl (by decide) (by decide),
   c10_short_quotemask.2 ⟨none, true, true, true⟩ 0 (s2l "x")
      (Or.inl rfl) (by decide)⟩

/-! ## The enrichment pipeline (`process_row`)

Network collaborators (`find_book_dois_in_crossref`,
`get_metadata_from_crossref`, `get_metadata_from_pubmed`, shortDOI redirect
resolution) are oracle functions in the environment.  Dictionary reads model
`KeyError` as `none`; log records keep the level and a short message tag
(interpolated arguments are not modelled). -/

/-- Levels of the `logging` calls made by the pipeline. -/
inductive LogLevel where
  | error | warning | info | debug
deriving DecidableEq, Repr

/-- One log record: level and message tag. -/
abbrev LogEntry := LogLevel × Str

/-- Modelled from the spec: the per-field overwrite policy of `CSVColumn`
(`keep-existing`, `prefer-new`, `prefer-new-if-existing-is-empty`); the
`CSVColumn` class lives in the enrichment scripts, which are not part of the
sources under verification. -/
inductive OverwritePolicy where
  | keepExisting | preferNew | preferNewIfEmpty
deriving DecidableEq, Repr

/-- Modelled from the spec: `CSVColumn.check_overwrite` applies the policy
when merging a new value over an existing one. -/
def checkOverwrite : OverwritePolicy → Str → Str → Str
  | .keepExisting, old, _ => old
  | .preferNew, _, new => new
  | .preferNewIfEmpty, old, new => if hasValue old then old else new

/-- Modelled from the spec: the parts of a `CSVColumn` object consumed by
`process_row` (source column index, logical column type, overwrite policy). -/
structure CSVColumn where
  index : Option Nat
  columnType : Str
  policy : OverwritePolicy

/-- The working record `current_row`: a mapping from logical field names to
string values (newest binding first). -/
abbrev RowDict := List (Str × Str)

/-- Dictionary write `current_row[k] = v`. -/
def dset (m : RowDict) (k v : Str) : RowDict := (k, v) :: m

/-- Dictionary read `current_row[k]`; `none` models a `KeyError`. -/
def dget (m : RowDict) (k : Str) : Option Str := m.lookup k

/-- Exact-match table lookup with fallback (`dict.get(key, key)`). -/
def assocGetD (m : List (Str × Str)) (k dflt : Str) : Str := (m.lookup k).getD dflt

/-- Result of the `find_book_dois_in_crossref` collaborator. -/
structure CRIsbnResult where
  success : Bool
  dois : List Str
  errorMsg : Str

/-- The `data` payload of a successful `get_metadata_from_crossref` call:
the `doi_type`, the popped `prefix` (possibly `None`), and the remaining
metadata fields in dictionary order (values possibly `None`). -/
structure CRData where
  doiType : Str
  pfx : Option Str
  fields : List (Str × Option Str)

/-- Result of the `get_metadata_from_crossref` collaborator. -/
structure CRMetaResult where
  success : Bool
  errorMsg : Str
  data : Option CRData

/-- Result of the `get_metadata_from_pubmed` collaborator
(fields `pmid`, `pmcid`, values possibly `None`). -/
structure PMResult where
  success : Bool
  errorMsg : Str
  fields : List (Str × Option Str)

/-- One DOAB record as returned by `DOABAnalysis.lookup`. -/
structure DoabRec where
  bookTitle : Str
  publisher : Str
  licenseRef : Str

/-- Everything `process_row` consumes besides the row itself: configuration,
reference data, the global mapping tables (`mappings` module, modelled from
the spec as exact-match dictionaries), the float-based monetary normalizer
(`_process_euro_value`, abstracted because its behaviour depends on IEEE-754
arithmetic), and the network oracles. -/
structure Env where
  columnMap : List (Str × CSVColumn)
  numRequiredColumns : Nat
  additionalIsbnColumns : List Nat
  rangeData : RangeData
  doabMap : List (Str × DoabRec)
  doajIssnMap : List (Str × Str)
  doajEissnMap : List (Str × Str)
  noCrossrefLookup : Bool
  noPubmedLookup : Bool
  noDoajLookup : Bool
  offsettingMode : Option Str
  crossrefMaxRetries : Nat
  findBookDois : List Str → CRIsbnResult
  crossrefMeta : Str → CRMetaResult
  pubmedMeta : Str → PMResult
  shortDoiResolve : Str → Option Str
  processEuro : Str → List LogEntry × Str
  hybridWhitelist : List (Str × List Str)
  journalMappings : List (Str × Str)
  publisherMappings : List (Str × Str)

/-! ### DOI normalization (`get_normalised_DOI`) -/

/-- A token of a hand-compiled regex literal: a (lower-cased) literal
character matched case-insensitively, or any character (an unescaped `.`). -/
inductive PatTok where
  | lit (c : Char)
  | any

/-- Match a token list at the start of the input, returning the remainder. -/
def matchPat : List PatTok → Str → Option Str
  | [], rest => some rest
  | .lit c :: ps, x :: xs => if x.toLower = c then matchPat ps xs else none
  | .any :: ps, _ :: xs => matchPat ps xs
  | _, [] => none

/-- Literal pattern from a lower-case string. -/
def tokLit (s : String) : List PatTok := s.data.map .lit

/-- The `(https?://)?(dx.)?doi.org/` URL prefix of `DOI_RE`/`SHORTDOI_RE`
(the unescaped dots match any character); tries each combination of the
optional groups, which are mutually exclusive on any given input. -/
def doiUrlPfxRest (l : Str) : Option Str :=
  let doiOrg := tokLit "doi" ++ [.any] ++ tokLit "org/"
  let dx := tokLit "dx" ++ [.any]
  (matchPat (tokLit "https://" ++ dx ++ doiOrg) l).orElse fun _ =>
  (matchPat (tokLit "https://" ++ doiOrg) l).orElse fun _ =>
  (matchPat (tokLit "http://" ++ dx ++ doiOrg) l).orElse fun _ =>
  (matchPat (tokLit "http://" ++ doiOrg) l).orElse fun _ =>
  (matchPat (dx ++ doiOrg) l).orElse fun _ =>
  matchPat doiOrg l

/-- Consume `(\.[0-9]+)*` maximally, returning consumed part and rest. -/
def dotDigitGroupsAux : Nat → Str → Str × Str
  | 0, l => ([], l)
  | fuel + 1, l =>
    match l with
    | '.' :: rest =>
      let ds := rest.takeWhile isDigitChar
      if ds = [] then ([], l)
      else
        let out := dotDigitGroupsAux fuel (rest.dropWhile isDigitChar)
        ('.' :: ds ++ out.1, out.2)
    | _ => ([], l)

/-- Consume `(\.[0-9]+)*` maximally. -/
def dotDigitGroups (l : Str) : Str × Str := dotDigitGroupsAux l.length l

/-- Match the DOI core pattern `10\.[0-9]+(\.[0-9]+)*\/\S+` at the start of
the input and return the matched (greedy) `doi` group. -/
def matchDoiCore (l : Str) : Option Str :=
  match l with
  | '1' :: '0' :: '.' :: rest =>
    let ds := rest.takeWhile isDigitChar
    if ds = [] then none
    else
      let out := dotDigitGroups (rest.dropWhile isDigitChar)
      match out.2 with
      | '/' :: r2 =>
        let tail := r2.takeWhile (fun ch => ¬ isSpaceChar ch)
        if tail = [] then none
        else some ('1' :: '0' :: '.' :: ds ++ out.1 ++ '/' :: tail)
      | _ => none
  | _ => none

/-- The `doi` group of a `DOI_RE` match (prefix alternatives:
URL form, `doi:`, or none). -/
def doiReMatch (l : Str) : Option Str :=
  match matchDoiCore l with
  | some doi => some doi
  | none =>
    match doiUrlPfxRest l with
    | some rest => matchDoiCore rest
    | none =>
      match matchPat (tokLit "doi:") l with
      | some rest => matchDoiCore rest
      | none => none

/-- The `shortdoi` group of a `SHORTDOI_RE` match (`[a-z0-9]+`,
case-insensitive, anchored at the end). -/
def shortDoiMatch (l : Str) : Option Str :=
  match doiUrlPfxRest l with
  | some rest =>
    if rest ≠ [] && rest.all (fun c =>
        isDigitChar c || (97 ≤ c.toLower.toNat && c.toLower.toNat ≤ 122)) then
      some rest
    else none
  | none => none

/-- `get_normalised_DOI` (source lines 602-624); the shortDOI redirect
lookup is the network oracle `resolveShort` (returning the lower-cased DOI
extracted from the `Location` header, or `None`). -/
def getNormalisedDOI (resolveShort : Str → Option Str) (s : Str) : Option Str :=
  let t := pyStrip s
  match doiReMatch t with
  | some doi => some (lowerStr doi)
  | none =>
    match shortDoiMatch t with
    | some sd => resolveShort sd
    | none => none

/-! ### Row-level helpers -/

/-- Match `^\d{4}-[0-1]{1}\d(-[0-3]{1}\d)?$` (period values). -/
def periodRe (l : Str) : Bool :=
  match l with
  | [a, b, c, d, '-', e, f] =>
    [a, b, c, d, f].all isDigitChar && (e = '0' || e = '1')
  | [a, b, c, d, '-', e, f, '-', g, h] =>
    [a, b, c, d, f, h].all isDigitChar && (e = '0' || e = '1') &&
      (g = '0' || g = '1' || g = '2' || g = '3')
  | _ => false

/-- `_process_period_value` (source lines 1133-1139). -/
def processPeriodValue (v : Str) : List LogEntry × Str :=
  if periodRe v then ([(.info, s2l "period_format")], v.take 4) else ([], v)

/-- `get_hybrid_status_from_whitelist` (source lines 1484-1497); the
whitelist table comes from the external `mappings` module. -/
def getHybridStatusFromWhitelist (wl : List (Str × List Str)) (v : Str) :
    Option Str :=
  wl.findSome? (fun p =>
    if p.2.contains (lowerStr (pyStrip v)) then some p.1 else none)

/-- `_process_hybrid_status` (source lines 1141-1155). -/
def processHybridStatus (wl : List (Str × List Str)) (v : Str) :
    List LogEntry × Str :=
  if ¬ hasValue v then ([(.error, s2l "no_hybrid_identifier")], s2l "NA")
  else
    match getHybridStatusFromWhitelist wl v with
    | none => ([(.error, s2l "unknown_hybrid_identifier")], v)
    | some norm =>
      if norm ≠ v then ([(.warning, s2l "hybrid_normalisation")], norm)
      else ([], v)

/-- Match `^\d{7}[\dxX]$` (a bare 8-character ISSN without hyphen). -/
def issnUnsplitRe (l : Str) : Bool :=
  match l with
  | [a, b, c, d, e, f, g, h] =>
    [a, b, c, d, e, f, g].all isDigitChar && (isDigitChar h || h = 'x' || h = 'X')
  | _ => false

/-- `_process_crossref_results` (source lines 1157-1197): unification of
journal/publisher names, the pre-2015 Springer Nature re-attribution by
prefix, and hyphenation of bare ISSNs; `none` models the uncaught
`KeyError`/`ValueError` when `current_row["period"]` is missing or not an
integer in the publisher branch. -/
def processCrossrefResults (env : Env) (cur : RowDict) (pfx : Option Str)
    (key : Str) (value : Option Str) : Option (List LogEntry × Str) :=
  match value with
  | none => some ([], s2l "NA")
  | some v =>
    if key = s2l "journal_full_title" then
      let u := assocGetD env.journalMappings v v
      some ((if u ≠ v then [(.warning, s2l "unify")] else []), u)
    else if key = s2l "publisher" then
      let u := assocGetD env.publisherMappings v v
      let logs0 : List LogEntry := if u ≠ v then [(.warning, s2l "unify")] else []
      match dget cur (s2l "period") with
      | none => none
      | some periodStr =>
        match pyInt periodStr with
        | none => none
        | some year =>
          if year < 2015 ∧ u = s2l "Springer Nature" then
            let sciList := [s2l "Springer (Biomed Central Ltd.)",
              s2l "Springer-Verlag", s2l "Springer - Psychonomic Society"]
            let natList := [s2l "Nature Publishing Group",
              s2l "Nature Publishing Group - Macmillan Publishers"]
            match pfx with
            | some pv =>
              if sciList.contains pv then
                some (logs0 ++ [(.warning, s2l "springer_distinction")],
                  s2l "Springer Science + Business Media")
              else if natList.contains pv then
                some (logs0 ++ [(.warning, s2l "springer_distinction")],
                  s2l "Nature Publishing Group")
              else some (logs0 ++ [(.error, s2l "unknown_prefix")], u)
            | none => some (logs0 ++ [(.error, s2l "unknown_prefix")], u)
          else some (logs0, u)
    else if key = s2l "issn" || key = s2l "issn_print" || key = s2l "issn_electronic" then
      if issnUnsplitRe v then
        some ([(.warning, s2l "issn_hyphen_fix")], v.take 4 ++ '-' :: v.drop 4)
      else some ([], v)
    else some ([], v)

/-- One iteration of the column-copy loop of `process_row`
(source lines 1311-1323). -/
def copyColumnStep (env : Env) (row : List Str) (col : CSVColumn)
    (cur : RowDict) : Option (List LogEntry × RowDict) :=
  if col.columnType = s2l "euro" ∧ col.index.isSome then
    match col.index with
    | some i =>
      match row.get? i with
      | none => none
      | some v =>
        let out := env.processEuro v
        some (out.1, dset cur (s2l "euro") out.2)
    | none => none
  else if col.columnType = s2l "period" then
    match col.index with
    | none => none
    | some i =>
      match row.get? i with
      | none => none
      | some v =>
        let out := processPeriodValue v
        some (out.1, dset cur (s2l "period") out.2)
  else if col.columnType = s2l "is_hybrid" ∧ col.index.isSome then
    match col.index with
    | some i =>
      match row.get? i with
      | none => none
      | some v =>
        let out := processHybridStatus env.hybridWhitelist v
        some (out.1, dset cur (s2l "is_hybrid") out.2)
    | none => none
  else
    match col.index with
    | some i =>
      match row.get? i with
      | none => none
      | some v =>
        some ([], dset cur col.columnType (if v.length > 0 then v else s2l "NA"))
    | none => some ([], dset cur col.columnType (s2l "NA"))

/-- The column-copy loop over `column_map.values()`. -/
def copyColumns (env : Env) (row : List Str) :
    List (Str × CSVColumn) → RowDict → Option (List LogEntry × RowDict)
  | [], cur => some ([], cur)
  | (_, col) :: rest, cur =>
    match copyColumnStep env row col cur with
    | none => none
    | some (ls, cur') =>
      match copyColumns env row rest cur' with
      | none => none
      | some (ls2, curF) => some (ls ++ ls2, curF)

/-- The normalization loop of `_isbn_lookup` building `query_isbns`
(source lines 1212-1221). -/
def collectQueryIsbns (rd : RangeData) :
    List Str → Option (List LogEntry × List Str)
  | [] => some ([], [])
  | isbn :: rest =>
    match testAndNormalizeIsbn rd isbn with
    | .exn => none
    | .valid n =>
      match collectQueryIsbns rd rest with
      | none => none
      | some (ls, qs) =>
        some (ls, (if isbn ≠ n then [isbn, n] else [isbn]) ++ qs)
    | .invalid _ =>
      match collectQueryIsbns rd rest with
      | none => none
      | some (ls, qs) => some ((.warning, s2l "invalid_isbn") :: ls, qs)

/-- Read `[row[i] for i in additional_isbn_columns]`; `none` models an
`IndexError`. -/
def readCells (row : List Str) : List Nat → Option (List Str)
  | [] => some []
  | i :: rest =>
    match row.get? i with
    | none => none
    | some v => (readCells row rest).map (v :: ·)

/-- `_isbn_lookup` (source lines 1199-1238): collect candidate ISBNs, query
the reverse DOI lookup, and return `(found_doi, record_type)`.  `none`
models an uncaught exception (normalization `ValueError`, a missing key, or
the `ValueError` that `find_book_dois_in_crossref` raises on an empty query
list). -/
def isbnLookup (env : Env) (cur : RowDict) (additionalIsbns : List Str) :
    Option (List LogEntry × (Option Str × Option Str)) :=
  match dget cur (s2l "isbn"), dget cur (s2l "isbn_print"),
      dget cur (s2l "isbn_electronic") with
  | some v1, some v2, some v3 =>
    let collected := ([v1, v2, v3].filter hasValue) ++ additionalIsbns.filter hasValue
    if collected = [] then
      some ([(.warning, s2l "no_doi_no_isbn_default_journal_article")],
        (none, some (s2l "journal_article")))
    else
      match collectQueryIsbns env.rangeData collected with
      | none => none
      | some (ls, qs) =>
        if qs = [] then none
        else
          let res := env.findBookDois qs
          if ¬ res.success then
            some (ls ++ [(.error, s2l "isbn_lookup_error")],
              (none, some (s2l "book_title")))
          else
            match res.dois with
            | [] => some (ls ++ [(.info, s2l "isbn_lookup_no_doi")],
                (none, some (s2l "book_title")))
            | [d] => some (ls ++ [(.info, s2l "isbn_lookup_doi_found")],
                (some d, none))
            | d :: _ :: _ => some (ls ++ [(.warning, s2l "isbn_lookup_multiple_dois")],
                (some d, none))
  | _, _, _ => none

/-- The 504 retry loop around `get_metadata_from_crossref`
(source lines 1353-1362), with `crossref_max_retries` as fuel. -/
def crossrefRetry (cr : Str → CRMetaResult) (doi : Str) :
    Nat → CRMetaResult → List LogEntry × CRMetaResult
  | 0, res => ([], res)
  | n + 1, res =>
    if ¬ res.success ∧ (s2l "HTTPError: 504").isPrefixOf res.errorMsg then
      let out := crossrefRetry cr doi n (cr doi)
      ((.warning, s2l "crossref_retrying") :: out.1, out.2)
    else ([], res)

/-- The merge loop over crossref metadata fields applying the overwrite
policies (source lines 1369-1372). -/
def mergeCrossrefFields (env : Env) (pfx : Option Str) :
    List (Str × Option Str) → RowDict → Option (List LogEntry × RowDict)
  | [], cur => some ([], cur)
  | (k, v) :: rest, cur =>
    match processCrossrefResults env cur pfx k v with
    | none => none
    | some (ls, newV) =>
      match dget cur k with
      | none => none
      | some oldV =>
        match env.columnMap.lookup k with
        | none => none
        | some col =>
          let cur' := dset cur k (checkOverwrite col.policy oldV newV)
          match mergeCrossrefFields env pfx rest cur' with
          | none => none
          | some (ls2, curF) => some (ls ++ ls2, curF)

/-- The merge loop over pubmed fields (source lines 1393-1404). -/
def mergePubmedFields (env : Env) :
    List (Str × Option Str) → RowDict → Option (List LogEntry × RowDict)
  | [], cur => some ([], cur)
  | (k, v) :: rest, cur =>
    let step : List LogEntry × Str :=
      match v with
      | some nv => ([], nv)
      | none => ([(.debug, s2l "pubmed_element_not_found")], s2l "NA")
    match dget cur k with
    | none => none
    | some oldV =>
      match env.columnMap.lookup k with
      | none => none
      | some col =>
        let cur' := dset cur k (checkOverwrite col.policy oldV step.2)
        match mergePubmedFields env rest cur' with
        | none => none
        | some (ls2, curF) => some (step.1 ++ ls2, curF)

/-- `DOAJAnalysis.lookup` (source lines 249-254). -/
def doajLookup (env : Env) (issn : Str) : Option Str :=
  match env.doajIssnMap.lookup issn with
  | some t => some t
  | none => env.doajEissnMap.lookup issn

/-- The DOAJ scan over the collected ISSNs with first-hit break
(source lines 1419-1429); the accumulator is `new_value`. -/
def doajScan (env : Env) : List Str → Str → List LogEntry × Str
  | [], nv => ([], nv)
  | issn :: rest, _nv =>
    match doajLookup env issn with
    | some t =>
      if t ≠ [] then ([(.info, s2l "doaj_found")], s2l "TRUE")
      else
        let out := doajScan env rest (s2l "FALSE")
        ((.info, s2l "doaj_not_found") :: out.1, out.2)
    | none =>
      let out := doajScan env rest (s2l "FALSE")
      ((.info, s2l "doaj_not_found") :: out.1, out.2)
  termination_by l _ => l.length

/-- `DOABAnalysis.lookup` (source lines 322-333); outer `none` models the
uncaught normalization exception. -/
def doabLookup (env : Env) (isbn : Str) : Option (Option DoabRec) :=
  match testAndNormalizeIsbn env.rangeData isbn with
  | .exn => none
  | .valid n => some (env.doabMap.lookup n)
  | .invalid _ => some none

/-- `_process_isbn` (source lines 1240-1263), including the (unreachable)
`error_type == 4` repair branch; `none` models an uncaught exception. -/
def processIsbn (rd : RangeData) (isbn : Str) : Option (List LogEntry × Str) :=
  if ¬ hasValue isbn then some ([], s2l "NA")
  else
    let isbn' := removeSpaces isbn
    match testAndNormalizeIsbn rd isbn' with
    | .exn => none
    | .valid n =>
      if n ≠ isbn' then some ([(.info, s2l "isbn_tested_and_split")], n)
      else some ([], n)
    | .invalid e =>
      if e = 4 then
        match testAndNormalizeIsbn rd (removeHyphens isbn') with
        | .valid n => some ([(.info, s2l "isbn_invalid_split_fixed")], n)
        | _ => none
      else some ([(.warning, s2l "invalid_isbn_set_na")], s2l "NA")

/-- The loop normalizing the three ISBN fields of the working record and
collecting the valid ones (source lines 1433-1438). -/
def processIsbnFields (env : Env) :
    List Str → RowDict → Option (List LogEntry × RowDict × List Str)
  | [], cur => some ([], cur, [])
  | fld :: rest, cur =>
    match dget cur fld with
    | none => none
    | some v =>
      match processIsbn env.rangeData v with
      | none => none
      | some (ls, v') =>
        let cur' := dset cur fld v'
        match processIsbnFields env rest cur' with
        | none => none
        | some (ls2, curF, coll) =>
          some (ls ++ ls2, curF, (if hasValue v' then [v'] else []) ++ coll)

/-- The loop normalizing the additional ISBN columns
(source lines 1439-1443). -/
def processAdditionalIsbns (env : Env) :
    List Str → Option (List LogEntry × List Str)
  | [] => some ([], [])
  | v :: rest =>
    match processIsbn env.rangeData v with
    | none => none
    | some (ls, r) =>
      match processAdditionalIsbns env rest with
      | none => none
      | some (ls2, coll) => some (ls ++ ls2, (if hasValue r then [r] else []) ++ coll)

/-- The DOAB scan with first-hit break (source lines 1450-1468). -/
def doabScanLoop (env : Env) (cur0 : RowDict) :
    List Str → Option (List LogEntry × RowDict)
  | [] =>
    some ([(.info, s2l "doab_none_found")],
      dset cur0 (s2l "doab") (s2l "FALSE"))
  | isbn :: rest =>
    match doabLookup env isbn with
    | none => none
    | some none => doabScanLoop env cur0 rest
    | some (some r) =>
      let cur1 := dset cur0 (s2l "doab") (s2l "TRUE")
      match dget cur1 (s2l "indexed_in_crossref") with
      | none => none
      | some flag =>
        let step : List LogEntry × RowDict :=
          if flag = s2l "TRUE" then ([(.info, s2l "crossref_precedence")], cur1)
          else ([], dset (dset (dset cur1 (s2l "book_title") r.bookTitle)
            (s2l "publisher") r.publisher) (s2l "license_ref") r.licenseRef)
        match dget step.2 (s2l "isbn") with
        | none => none
        | some isbnVal =>
          let cur3 := if ¬ hasValue isbnVal then dset step.2 (s2l "isbn") isbn
            else step.2
          some ((.info, s2l "doab_isbn_found") :: step.1, cur3)
  termination_by l => l.length

/-- `COLUMN_SCHEMAS` (source lines 110-167). -/
def schemaFor (rt : Str) : Option (List Str) :=
  if rt = s2l "journal_article" then
    some [s2l "institution", s2l "period", s2l "euro", s2l "doi",
      s2l "is_hybrid", s2l "publisher", s2l "journal_full_title", s2l "issn",
      s2l "issn_print", s2l "issn_electronic", s2l "issn_l", s2l "license_ref",
      s2l "indexed_in_crossref", s2l "pmid", s2l "pmcid", s2l "ut",
      s2l "url", s2l "doaj"]
  else if rt = s2l "journal_article_transagree" then
    some [s2l "institution", s2l "period", s2l "euro", s2l "doi",
      s2l "is_hybrid", s2l "publisher", s2l "journal_full_title", s2l "issn",
      s2l "issn_print", s2l "issn_electronic", s2l "issn_l", s2l "license_ref",
      s2l "indexed_in_crossref", s2l "pmid", s2l "pmcid", s2l "ut",
      s2l "url", s2l "doaj", s2l "agreement"]
  else if rt = s2l "book_title" then
    some [s2l "institution", s2l "period", s2l "euro", s2l "doi",
      s2l "backlist_oa", s2l "publisher", s2l "book_title", s2l "isbn",
      s2l "isbn_print", s2l "isbn_electronic", s2l "license_ref",
      s2l "indexed_in_crossref", s2l "doab"]
  else none

/-- The final projection loop over the schema fields
(source lines 1478-1480); `none` models a `KeyError`. -/
def projectRow (cur : RowDict) : List Str → Option (List Str)
  | [] => some []
  | f :: rest =>
    match dget cur f with
    | none => none
    | some v => (projectRow cur rest).map (v :: ·)

/-- Outcome of one full `process_row` body. -/
inductive PROut where
  | enriched (recordType : Str) (vals : List Str)
  | unchanged (row : List Str)
  | exn
  | fuelOut
deriving DecidableEq, Repr

/-- Outcome of one `process_row` body before resolving recursion: either a
final result or a restart (the recursive call) with the updated row. -/
inductive StepRes where
  | done (o : PROut)
  | restart (row : List Str)
deriving DecidableEq, Repr

/-- The shared "reverse-lookup and maybe restart" block: read the additional
ISBN cells, run `_isbn_lookup`, update `record_type`, and on a found DOI
write it into the row (`row[column_map["doi"].index] = found_doi`) and
request a restart (source lines 1331-1342 and 1377-1389). -/
def isbnStage (env : Env) (row : List Str) (cur : RowDict)
    (recordType : Option Str) :
    Option (List LogEntry × Option Str × Option (List Str)) :=
  match readCells row env.additionalIsbnColumns with
  | none => none
  | some adds =>
    match isbnLookup env cur adds with
    | none => none
    | some (ls, foundDoi, rType) =>
      let recordType' := match rType with
        | some t => some t
        | none => recordType
      match foundDoi with
      | none => some (ls, recordType', none)
      | some d =>
        match env.columnMap.lookup (s2l "doi") with
        | none => none
        | some col =>
          match col.index with
          | none => none
          | some idx =>
            some (ls ++ [(.info, s2l "restart_enrichment")], recordType',
              some (row.set idx d))

/-- Stages 10-12 of the pipeline: offsetting override, record-type default,
schema projection (source lines 1469-1482). -/
def finalStage (env : Env) (acc : List LogEntry) (cur : RowDict)
    (recordType : Option Str) : List LogEntry × StepRes :=
  let step1 : RowDict × Option Str :=
    match env.offsettingMode with
    | some tag =>
      if tag ≠ [] then
        (dset cur (s2l "agreement") tag, some (s2l "journal_article_transagree"))
      else (cur, recordType)
    | none => (cur, recordType)
  let step2 : List LogEntry × Str :=
    match step1.2 with
    | none => ([(.error, s2l "unknown_record_type_default")], s2l "journal_article")
    | some t => ([], t)
  match schemaFor step2.2 with
  | none => (acc ++ step2.1, .done .exn)
  | some fields =>
    match projectRow step1.1 fields with
    | none => (acc ++ step2.1, .done .exn)
    | some vals => (acc ++ step2.1, .done (.enriched step2.2 vals))

/-- Stage 9 of the pipeline: book-specific finalization via DOAB
(source lines 1432-1468). -/
def bookStage (env : Env) (row : List Str) (acc : List LogEntry)
    (cur : RowDict) (recordType : Option Str) : List LogEntry × StepRes :=
  if recordType ≠ some (s2l "journal_article") then
    match processIsbnFields env
        [s2l "isbn", s2l "isbn_print", s2l "isbn_electronic"] cur with
    | none => (acc, .done .exn)
    | some (ls1, cur2, coll1) =>
      match readCells row env.additionalIsbnColumns with
      | none => (acc ++ ls1, .done .exn)
      | some adds =>
        match processAdditionalIsbns env adds with
        | none => (acc ++ ls1, .done .exn)
        | some (ls2, coll2) =>
          let collected := coll1 ++ coll2
          if collected = [] then
            finalStage env (acc ++ ls1 ++ ls2 ++ [(.info, s2l "no_isbn_skip_doab")])
              (dset cur2 (s2l "doab") (s2l "NA")) recordType
          else
            match doabScanLoop env cur2 collected with
            | none => (acc ++ ls1 ++ ls2 ++ [(.info, s2l "doab_trying")], .done .exn)
            | some (ls3, cur3) =>
              finalStage env
                (acc ++ ls1 ++ ls2 ++ [(.info, s2l "doab_trying")] ++ ls3)
                cur3 (some (s2l "book_title"))
  else finalStage env acc cur recordType

/-- Stage 8 of the pipeline: the DOAJ confirmation
(source lines 1409-1431). -/
def doajStage (env : Env) (row : List Str) (acc : List LogEntry)
    (cur : RowDict) (recordType : Option Str) : List LogEntry × StepRes :=
  if ¬ env.noDoajLookup then
    match dget cur (s2l "issn_electronic"), dget cur (s2l "issn"),
        dget cur (s2l "issn_print") with
    | some ie, some ii, some ip =>
      let issns := (if ie ≠ s2l "NA" then [ie] else []) ++
        (if ii ≠ s2l "NA" then [ii] else []) ++
        (if ip ≠ s2l "NA" then [ip] else [])
      let out := doajScan env issns (s2l "NA")
      match dget cur (s2l "doaj"), env.columnMap.lookup (s2l "doaj") with
      | some oldV, some col =>
        bookStage env row (acc ++ out.1)
          (dset cur (s2l "doaj") (checkOverwrite col.policy oldV out.2))
          recordType
      | _, _ => (acc ++ out.1, .done .exn)
    | _, _, _ => (acc, .done .exn)
  else bookStage env row acc cur recordType

/-- Stage 7 of the pipeline: the pubmed metadata merge
(source lines 1390-1407). -/
def pubmedStage (env : Env) (row : List Str) (acc : List LogEntry)
    (cur : RowDict) (recordType : Option Str) (doi : Str) :
    List LogEntry × StepRes :=
  if ¬ env.noPubmedLookup then
    let res := env.pubmedMeta doi
    if res.success then
      match mergePubmedFields env res.fields cur with
      | none => (acc ++ [(.info, s2l "pubmed_resolved")], .done .exn)
      | some (ls, cur2) =>
        doajStage env row (acc ++ [(.info, s2l "pubmed_resolved")] ++ ls)
          cur2 recordType
    else
      doajStage env row (acc ++ [(.error, s2l "pubmed_error")]) cur recordType
  else doajStage env row acc cur recordType

/-- Stages 5b-7 of the pipeline for a present DOI: DOI normalization, the
crossref merge with retry and its fallback reverse lookup (with restart),
then pubmed (source lines 1343-1407); with no DOI value, falls through to
the DOAJ stage. -/
def afterDoi (env : Env) (row : List Str) (acc : List LogEntry)
    (cur : RowDict) (doi : Str) (recordType : Option Str) :
    List LogEntry × StepRes :=
  if hasValue doi then
    let norm : List LogEntry × RowDict × Str :=
      match getNormalisedDOI env.shortDoiResolve doi with
      | some nd =>
        if nd ≠ doi then ([(.info, s2l "doi_norm")], dset cur (s2l "doi") nd, nd)
        else ([], cur, doi)
      | none => ([], cur, doi)
    let acc1 := acc ++ norm.1
    let cur1 := norm.2.1
    let doi1 := norm.2.2
    if ¬ env.noCrossrefLookup then
      let out := crossrefRetry env.crossrefMeta doi1 env.crossrefMaxRetries
        (env.crossrefMeta doi1)
      let acc2 := acc1 ++ out.1
      if out.2.success then
        match out.2.data with
        | none => (acc2, .done .exn)
        | some data =>
          let cur2 := dset cur1 (s2l "indexed_in_crossref") (s2l "TRUE")
          match mergeCrossrefFields env data.pfx data.fields cur2 with
          | none => (acc2 ++ [(.info, s2l "crossref_doi_resolved")], .done .exn)
          | some (lsM, cur3) =>
            pubmedStage env row (acc2 ++ [(.info, s2l "crossref_doi_resolved")] ++ lsM)
              cur3 (some data.doiType) doi1
      else
        let acc3 := acc2 ++ [(.error, s2l "crossref_error")]
        let cur2 := dset cur1 (s2l "indexed_in_crossref") (s2l "FALSE")
        match isbnStage env row cur2 recordType with
        | none => (acc3, .done .exn)
        | some (ls2, _rt1, some row') => (acc3 ++ ls2, .restart row')
        | some (ls2, rt1, none) =>
          pubmedStage env row (acc3 ++ ls2) cur2 rt1 doi1
    else pubmedStage env row acc1 cur1 recordType doi1
  else doajStage env row acc cur recordType

/-- One full body of `process_row` (source lines 1265-1482), with the two
recursive calls replaced by `StepRes.restart`. -/
def processRowStep (env : Env) (row : List Str) : List LogEntry × StepRes :=
  if row.length ≠ env.numRequiredColumns then
    ([(.error, s2l "num_columns")], .done (.unchanged row))
  else
    match copyColumns env row env.columnMap [] with
    | none => ([], .done .exn)
    | some (ls1, cur1) =>
      match dget cur1 (s2l "doi") with
      | none => (ls1, .done .exn)
      | some doi0 =>
        if doi0.length = 0 ∨ doi0 = s2l "NA" then
          let acc := ls1 ++ [(.info, s2l "no_doi_found")]
          let cur2 := dset cur1 (s2l "indexed_in_crossref") (s2l "FALSE")
          match isbnStage env row cur2 none with
          | none => (acc, .done .exn)
          | some (ls2, _, some row') => (acc ++ ls2, .restart row')
          | some (ls2, rt1, none) => afterDoi env row (acc ++ ls2) cur2 doi0 rt1
        else afterDoi env row ls1 cur1 doi0 none

/-- `process_row` with the recursion made explicit: the fuel counts how many
times the body may run; `fuelOut` is reached exactly when the source
recursion would still be running (the restart calls at source lines
1340-1342 and 1387-1389 pass the default `crossref_max_retries=3`). -/
def processRowFuel (env : Env) : Nat → List Str → List LogEntry × PROut
  | 0, _ => ([], .fuelOut)
  | n + 1, row =>
    let st := processRowStep env row
    match st.2 with
    | .done o => (st.1, o)
    | .restart row' =>
      let r := processRowFuel {env with crossrefMaxRetries := 3} n row'
      (st.1 ++ r.1, r.2)

/-! ### Claims C1 and C7 -/

/-- A minimal environment for the shape-mismatch claim: empty reference
data, failing oracles, one required column. -/
def envTrivial : Env :=
  { columnMap := []
    numRequiredColumns := 1
    additionalIsbnColumns := []
    rangeData := rdTrivial
    doabMap := []
    doajIssnMap := []
    doajEissnMap := []
    noCrossrefLookup := true
    noPubmedLookup := true
    noDoajLookup := true
    offsettingMode := none
    crossrefMaxRetries := 0
    findBookDois := fun _ => ⟨false, [], []⟩
    crossrefMeta := fun _ => ⟨false, [], none⟩
    pubmedMeta := fun _ => ⟨false, [], []⟩
    shortDoiResolve := fun _ => none
    processEuro := fun v => ([], v)
    hybridWhitelist := []
    journalMappings := []
    publisherMappings := [] }

/-- C7: a row whose cell count differs from the configured column count is
returned unmodified, with exactly one logged error, and processing completes
normally (no exception, no restart). -/
theorem c7_shape_mismatch (env : Env) (row : List Str) (n : Nat)
    (h : row.length ≠ env.numRequiredColumns) :
    processRowFuel env (n + 1) row =
      ([(LogLevel.error, s2l "num_columns")], .unchanged row) := by
  have hstep : processRowStep env row =
      ([(LogLevel.error, s2l "num_columns")], .done (.unchanged row)) := by
    unfold processRowStep
    rw [if_pos h]
  simp only [processRowFuel, hstep]

/-- C7 witness: an empty row against one required column. -/
theorem c7_shape_mismatch_witness :
    processRowFuel envTrivial 1 [] =
      ([(LogLevel.error, s2l "num_columns")], .unchanged []) :=
  c7_shape_mismatch envTrivial [] 0 (by decide)

/-- The environment exhibiting the unbounded restart: deterministic
collaborators where the ISBN reverse lookup always finds the DOI
`10.1234/x` and the crossref metadata lookup for it always fails with a
non-504 error. -/
def envC1 : Env :=
  { columnMap := [(s2l "doi", ⟨some 0, s2l "doi", .preferNew⟩),
      (s2l "isbn", ⟨some 1, s2l "isbn", .preferNew⟩),
      (s2l "isbn_print", ⟨some 2, s2l "isbn_print", .preferNew⟩),
      (s2l "isbn_electronic", ⟨some 3, s2l "isbn_electronic", .preferNew⟩)]
    numRequiredColumns := 4
    additionalIsbnColumns := []
    rangeData := rdW
    doabMap := []
    doajIssnMap := []
    doajEissnMap := []
    noCrossrefLookup := false
    noPubmedLookup := false
    noDoajLookup := false
    offsettingMode := none
    crossrefMaxRetries := 3
    findBookDois := fun _ => ⟨true, [s2l "10.1234/x"], []⟩
    crossrefMeta := fun _ => ⟨false, s2l "HTTPError: 404 - Not Found", none⟩
    pubmedMeta := fun _ => ⟨false, [], []⟩
    shortDoiResolve := fun _ => none
    processEuro := fun v => ([], v)
    hybridWhitelist := []
    journalMappings := []
    publisherMappings := [] }

/-- A row with no DOI and one valid ISBN. -/
def rowC1 : List Str := [[], s2l "9783161484100", [], []]

/-- The same row after the discovered DOI has been integrated. -/
def rowC1' : List Str := [s2l "10.1234/x", s2l "9783161484100", [], []]

/-- The first body run on `rowC1` requests a restart with the DOI written
into the row. -/
theorem processRowStep_envC1_row0 :
    (processRowStep envC1 rowC1).2 = .restart rowC1' := by decide

/-- Every body run on the DOI-integrated row requests a restart with the
very same row again: the crossref lookup fails, the reverse lookup finds
the same DOI, and the row is re-entered unchanged. -/
theorem processRowStep_envC1_row1 :
    (processRowStep envC1 rowC1').2 = .restart rowC1' := by decide

/-- C1 (code bug): the restart transition is *not* bounded — under the
deterministic collaborators of `envC1`, enrichment of `rowC1` never
terminates (it runs out of any amount of fuel), because after the first
restart the failing crossref lookup triggers the reverse lookup and a
restart again, forever.  In the source this is an infinite recursion of
`process_row` (a `RecursionError` in Python). -/
theorem c1_restart_unbounded :
    ∀ n : Nat, (processRowFuel envC1 n rowC1).2 = .fuelOut := by
  have hfix : {envC1 with crossrefMaxRetries := 3} = envC1 := rfl
  have key : ∀ n : Nat, (processRowFuel envC1 n rowC1').2 = .fuelOut := by
    intro n
    induction n with
    | zero => rfl
    | succ m ih =>
      simp only [processRowFuel, processRowStep_envC1_row1, hfix]
      exact ih
  intro n
  cases n with
  | zero => rfl
  | succ m =>
    simp only [processRowFuel, processRowStep_envC1_row0, hfix]
    exact key m

end OpenAPC
